import Mathlib

/-!
Verification of the CollectX display-system persistence and domain layer.

Shallow embedding of `src/serve/src/store.ts`, `src/serve/src/survey.ts`
and the HTTP adapter (`app.ts`, provided unnamed).  File I/O is modelled
by explicit state passing: the data directory is an association list from
file name (relative to the `data/` directory) to the parsed JSON content
of that file.  Generated UUIDs and timestamps are passed as parameters.
Machine numbers (ages, `Date.now()` timestamps, envelope codes) are
modelled as `Int`/`Nat`; the claims only exercise integral values.
-/

namespace CollectX

/-- JSON-like runtime values: the dynamic (`any`) payloads of the source. -/
inductive Json where
  | null
  | bool (b : Bool)
  | num (n : Int)
  | str (s : String)
  | arr (elems : List Json)
  | obj (fields : List (String × Json))

/-- The uniform envelope `{ code, message, data }` from `types.ts`. -/
structure Response (α : Type) where
  code : Nat
  message : String
  data : α
deriving DecidableEq

/-- Structure `SurveyData` from `survey.ts`. -/
structure SurveyData where
  id : String
  name : String
  age : Int
  gender : String
  surveyResult : String
  createdAt : Int
deriving DecidableEq

/-- The body of a submission, `Omit SurveyData id createdAt`. -/
structure SurveyBody where
  name : String
  age : Int
  gender : String
  surveyResult : String
deriving DecidableEq

/-- The `data/` directory: file name to parsed JSON content. -/
abbrev Fs := List (String × Json)

/-- JavaScript truthiness of a value (`!v` is its negation). -/
def Json.truthy : Json → Bool
  | .null => false
  | .bool b => b
  | .num n => n != 0
  | .str s => s != ""
  | .arr _ => true
  | .obj _ => true

/-- Truthiness of a possibly absent (`undefined`) value. -/
def jsTruthy : Option Json → Bool
  | none => false
  | some v => v.truthy

/-- Predicate `Array.isArray`, with `none` standing for `undefined`. -/
def jsIsArray : Option Json → Bool
  | some (.arr _) => true
  | _ => false

/-- JavaScript truthiness of a possibly absent string field. -/
def strTruthy : Option String → Bool
  | none => false
  | some s => s != ""

/-- JavaScript truthiness of a possibly absent number field. -/
def numTruthy : Option Int → Bool
  | none => false
  | some n => n != 0

/-- Overwrite-or-create a key in an association list, keeping an
existing key at its position (JavaScript object-assignment semantics,
and file overwrite semantics for the `Fs` model). -/
def assocSetJ : Fs → String → Json → Fs
  | [], k, v => [(k, v)]
  | (k0, v0) :: rest, k, v =>
      if k0 = k then (k, v) :: rest else (k0, v0) :: assocSetJ rest k v

/-- The object `{ id, createTime, questions }` that `Store.saveQuestions`
serialises.  `JSON.stringify` drops a key whose value is `undefined`,
hence the `Option`. -/
def questionFileJson (uid time : String) (q : Option Json) : Json :=
  .obj ([("id", Json.str uid), ("createTime", Json.str time)] ++
    (match q with
     | some v => [("questions", v)]
     | none => []))

/-- Method `Store.saveQuestions(questions, surveyName)` (store.ts lines 104-123):
generates id and creation time (here the parameters `uid`, `time`) and
unconditionally writes `{ id, createTime, questions }` to
`data/<surveyName>_question.json`, returning a fixed success envelope.
No validation, no user name, no `surveyName` field in the object. -/
def Store.saveQuestions (questions : Option Json) (surveyName uid time : String)
    (fs : Fs) : Response String × Fs :=
  (⟨0, "设置成功", "问题列表已更新！"⟩,
    assocSetJ fs (surveyName ++ "_question.json") (questionFileJson uid time questions))

/-- Method `Store.findByFileName(fileName)` (store.ts lines 130-143): reads
`data/<fileName>.json` — note the appended `.json` — returning
`undefined` (`none`) when that file is absent. -/
def Store.findByFileName (fileName : String) (fs : Fs) : Option Json :=
  fs.lookup (fileName ++ ".json")

/-- JavaScript object-literal assignment of one key: the key keeps its
first position when already present, else is appended. -/
def jsSetField (fields : List (String × Json)) (k : String) (v : Json) :
    List (String × Json) :=
  if fields.any (fun p => p.1 == k) then
    fields.map (fun p => if p.1 == k then (k, v) else p)
  else fields ++ [(k, v)]

/-- The own enumerable properties a value contributes under object
spread: an object its fields, an array and a string their indexed
elements, every other value (including `null`) nothing. -/
def Json.ownFields : Json → List (String × Json)
  | .obj fields => fields
  | .arr xs => xs.enum.map (fun p => (toString p.1, p.2))
  | .str s => s.data.enum.map (fun p => (toString p.1, Json.str (String.mk [p.2])))
  | _ => []

/-- The expression `{ ...data, id: file }` of `Store.querySurveyData`,
with `none` standing for `undefined` (which spreads to nothing). -/
def spreadWithId (d : Option Json) (file : String) : Json :=
  .obj (jsSetField (match d with | some v => v.ownFields | none => []) "id" (.str file))

/-- Method `Store.querySurveyData(surveyName)` (store.ts lines 150-160): lists
the data directory, keeps the files matching `^<surveyName>_data_` (the
regex test is modelled as a literal prefix test, faithful for
metacharacter-free survey names), and maps each matched file `f` to
`{ ...findByFileName(f), id: f }`. -/
def Store.querySurveyData (surveyName : String) (fs : Fs) : List Json :=
  ((fs.map Prod.fst).filter
      (fun f => (surveyName ++ "_data_").data.isPrefixOf f.data)).map
    (fun f => spreadWithId (Store.findByFileName f fs) f)

/-- Method `Survey.save` (survey.ts lines 44-57): builds the new record from
the body plus generated id (`freshId`) and `Date.now()` (`now`), appends
it to the stored collection (`Store.save` writes `[...fileData, data]`),
and returns code 0 with the new record. -/
def Survey.save (body : SurveyBody) (freshId : String) (now : Int)
    (store : List SurveyData) : Response SurveyData × List SurveyData :=
  let newData : SurveyData :=
    { id := freshId, name := body.name, age := body.age, gender := body.gender,
      surveyResult := body.surveyResult, createdAt := now }
  (⟨0, "提交成功", newData⟩, store ++ [newData])

/-- Method `Survey.list` (survey.ts lines 65-73): reads all responses and sorts
them descending by `createdAt` via the comparator
`(a, b) => b.createdAt - a.createdAt`.  `Array.prototype.sort` is
specified stable, so it is modelled by the (stable) `List.mergeSort`
with `le a b` meaning the comparator is nonpositive on `(a, b)`. -/
def Survey.list (store : List SurveyData) : Response (List SurveyData) :=
  ⟨0, "查询成功", store.mergeSort (fun a b => decide (b.createdAt ≤ a.createdAt))⟩

/-- Method `Survey.findById` (survey.ts lines 81-99): linear scan
(`Array.prototype.find`) for the first record with the given id. -/
def Survey.findById (id : String) (store : List SurveyData) :
    Response (Option SurveyData) :=
  match store.find? (fun item => item.id == id) with
  | some r => ⟨0, "查询成功", some r⟩
  | none => ⟨404, "数据不存在", none⟩

/-- Method `Survey.setQuestions` (survey.ts lines 108-122): rejects with 400 if
`!questions || !Array.isArray(questions)`; otherwise calls
`store.saveQuestions` and returns its own (identical) success
envelope. -/
def Survey.setQuestions (questions : Option Json) (surveyName uid time : String)
    (fs : Fs) : Response String × Fs :=
  if !(jsTruthy questions) || !(jsIsArray questions) then
    (⟨400, "参数错误", "请提供正确的问题列表"⟩, fs)
  else
    let r := Store.saveQuestions questions surveyName uid time fs
    (⟨0, "设置成功", "问题列表已更新！"⟩, r.2)

/-- Method `Survey.updateQuestions` (survey.ts lines 144-146): delegates
directly to `store.saveQuestions` with no validation at all and returns
its envelope. -/
def Survey.updateQuestions (questions : Option Json) (surveyName uid time : String)
    (fs : Fs) : Response String × Fs :=
  Store.saveQuestions questions surveyName uid time fs

/-- Method `Survey.querySurveyData` (survey.ts lines 153-168): 404 with empty
data when the store query matches nothing, else code 0 with the list. -/
def Survey.querySurveyData (surveyName : String) (fs : Fs) : Response (List Json) :=
  let data := Store.querySurveyData surveyName fs
  if data.length = 0 then ⟨404, "数据不存在", []⟩
  else ⟨0, "查询成功", data⟩

/-- The in-memory role map of the `Authorization` class, modelled as an
association list with JavaScript object-assignment update. -/
abbrev RoleMap := List (String × String)

/-- Object-assignment update for the role map (last write wins). -/
def assocSetS : RoleMap → String → String → RoleMap
  | [], k, v => [(k, v)]
  | (k0, v0) :: rest, k, v =>
      if k0 = k then (k, v) :: rest else (k0, v0) :: assocSetS rest k v

/-- Method `Authorization.setRole` (survey.ts lines 188-202). -/
def Authorization.setRole (userId role : String) (m : RoleMap) :
    Response String × RoleMap :=
  if userId = "" ∨ role = "" then
    (⟨400, "缺少参数", "请提供正确的用户id和角色"⟩, m)
  else
    (⟨0, "设置成功", "用户角色已更新！"⟩, assocSetS m userId role)

/-- Method `Authorization.getRole` (survey.ts lines 209-223):
`this.authorizationMap[userId] ?? ''`. -/
def Authorization.getRole (userId : String) (m : RoleMap) : Response String :=
  if userId = "" then
    ⟨400, "缺少参数", "请提供正确的用户id"⟩
  else
    ⟨0, "查询成功", (m.lookup userId).getD ""⟩

/-- The `POST /survey` handler (app.ts lines 16-26): destructures the
four body fields (modelled at their interface types, `none` standing for
an absent field), rejects with HTTP 400 and a null-data envelope when
any is falsy (`!name || !age || !gender || !surveyResult`), otherwise
calls `Survey.save` and responds with its envelope. -/
def postSurvey (name : Option String) (age : Option Int)
    (gender surveyResult : Option String) (freshId : String) (now : Int)
    (store : List SurveyData) : Response (Option SurveyData) × List SurveyData :=
  if !(strTruthy name) || !(numTruthy age) || !(strTruthy gender) ||
      !(strTruthy surveyResult) then
    (⟨400, "缺少参数", none⟩, store)
  else
    let r := Survey.save ⟨name.getD "", age.getD 0, gender.getD "",
      surveyResult.getD ""⟩ freshId now store
    (⟨r.1.code, r.1.message, some r.1.data⟩, r.2)

/-- The outcome of `fs.readFile` on the backing file, with the parse
outcome of the raw text folded in: `ok (.ok v)` is a readable file whose
text parses to `v`, `ok (.error e)` a readable but corrupt file on which
`JSON.parse` throws `e`. -/
inductive FsReadOutcome where
  | enoent
  | ioError (e : String)
  | ok (parsed : Except String Json)

/-- The two error kinds a read can propagate. -/
inductive StoreError where
  | io (e : String)
  | parse (e : String)

/-- Function `Store.readFromFile` (store.ts lines 64-76): parses the
text of the file on success; in the catch block, only an error whose
code is ENOENT is handled (yielding `[]`), every other error is
re-thrown; a `JSON.parse` failure has no code field and is re-thrown
too. -/
def Store.readFromFile : FsReadOutcome → Except StoreError Json
  | .ok (.ok v) => .ok v
  | .ok (.error e) => .error (.parse e)
  | .enoent => .ok (.arr [])
  | .ioError e => .error (.io e)

/-! ## Helper lemmas -/

/-- Looking up a key right after an object-assignment update yields the
assigned value (last write wins). -/
theorem lookup_assocSetS_self (m : RoleMap) (k v : String) :
    (assocSetS m k v).lookup k = some v := by
  induction m with
  | nil => simp [assocSetS]
  | cons p rest ih =>
    obtain ⟨k0, v0⟩ := p
    by_cases h : k0 = k
    · subst h; simp [assocSetS]
    · have hbk : (k == k0) = false := by simp [Ne.symm h]
      simpa [assocSetS, h, List.lookup_cons, hbk] using ih

/-- Every entry of an updated file system either has the written key or
was already present. -/
theorem fst_mem_assocSetJ {fs : Fs} {k : String} {v : Json} :
    ∀ p ∈ assocSetJ fs k v, p.1 = k ∨ p ∈ fs := by
  induction fs with
  | nil =>
    intro p hp
    simp only [assocSetJ, List.mem_singleton] at hp
    subst hp
    exact Or.inl rfl
  | cons q rest ih =>
    obtain ⟨k0, v0⟩ := q
    intro p hp
    by_cases h : k0 = k
    · subst h
      rw [assocSetJ, if_pos rfl, List.mem_cons] at hp
      cases hp with
      | inl h1 => subst h1; exact Or.inl rfl
      | inr h2 => exact Or.inr (List.mem_cons_of_mem _ h2)
    · rw [assocSetJ, if_neg h, List.mem_cons] at hp
      cases hp with
      | inl h1 => subst h1; exact Or.inr (List.mem_cons_self _ _)
      | inr h2 =>
        cases ih p h2 with
        | inl h3 => exact Or.inl h3
        | inr h4 => exact Or.inr (List.mem_cons_of_mem _ h4)

/-- The question file written for a survey never matches the `_data_`
file pattern of that same survey. -/
theorem question_file_no_data_match (s : String) :
    ((s ++ "_data_").data.isPrefixOf (s ++ "_question.json").data) = false := by
  by_contra hne
  rw [Bool.not_eq_false, List.isPrefixOf_iff_prefix, String.data_append,
    String.data_append, List.prefix_append_right_inj] at hne
  exact absurd hne (by decide)

/-- In a `Pairwise R` list containing `a` and `b` with `¬ R a b`, the
pair `[b, a]` occurs in that order. -/
theorem pair_sublist_of_pairwise {α : Type} {R : α → α → Prop} {a b : α} :
    ∀ {l : List α}, l.Pairwise R → a ∈ l → b ∈ l → a ≠ b → ¬ R a b →
      List.Sublist [b, a] l := by
  intro l
  induction l with
  | nil => intro _ ha _ _ _; simp at ha
  | cons x xs ih =>
    intro hp ha hb hne hnab
    rw [List.pairwise_cons] at hp
    by_cases hxb : x = b
    · subst hxb
      have haxs : a ∈ xs := by
        rcases List.mem_cons.mp ha with h | h
        · exact absurd h hne
        · exact h
      exact (List.singleton_sublist.mpr haxs).cons₂ x
    · have hbxs : b ∈ xs := by
        rcases List.mem_cons.mp hb with h | h
        · exact absurd h.symm hxb
        · exact h
      have hxa : x ≠ a := by
        intro hxa; subst hxa
        exact hnab (hp.1 b hbxs)
      have haxs : a ∈ xs := by
        rcases List.mem_cons.mp ha with h | h
        · exact absurd h.symm hxa
        · exact h
      exact (ih hp.2 haxs hbxs hne hnab).cons x

/-! ## Claim theorems -/

/-- Claim C8: `readFromFile` returns the empty collection exactly when
the backing file is absent (`ENOENT` is the only handled error); every
other I/O error and every JSON parse failure propagates unchanged. -/
theorem readAll_failure_semantics :
    Store.readFromFile .enoent = .ok (.arr [])
    ∧ (∀ e, Store.readFromFile (.ioError e) = .error (.io e))
    ∧ (∀ e, Store.readFromFile (.ok (.error e)) = .error (.parse e))
    ∧ (∀ v, Store.readFromFile (.ok (.ok v)) = .ok v) :=
  ⟨rfl, fun _ => rfl, fun _ => rfl, fun _ => rfl⟩

/-- Claim C4: `setQuestions` with an absent or non-array `questions`
value returns code 400 and leaves the file system unchanged; with an
array value it delegates to the overwrite-write of the store (returning the
very same envelope and state) and its code is 0. -/
theorem setQuestions_error_atomicity (q : Option Json)
    (surveyName uid time : String) (fs : Fs) :
    (jsIsArray q = false →
      Survey.setQuestions q surveyName uid time fs =
        (⟨400, "参数错误", "请提供正确的问题列表"⟩, fs))
    ∧ (jsIsArray q = true →
      Survey.setQuestions q surveyName uid time fs =
        Store.saveQuestions q surveyName uid time fs
      ∧ (Survey.setQuestions q surveyName uid time fs).1.code = 0) := by
  constructor
  · intro h
    simp [Survey.setQuestions, h]
  · intro h
    have ht : jsTruthy q = true := by
      match q, h with
      | some (.arr xs), _ => rfl
    constructor
    · simp [Survey.setQuestions, h, ht, Store.saveQuestions]
    · simp [Survey.setQuestions, h, ht]

/-- Witness for C4 at a concrete non-array input. -/
theorem setQuestions_error_atomicity_witness :
    Survey.setQuestions (some (.str "x")) "s" "u" "t" [] =
      (⟨400, "参数错误", "请提供正确的问题列表"⟩, []) :=
  (setQuestions_error_atomicity (some (.str "x")) "s" "u" "t" []).1 rfl

/-- Counterexample to claim C1: on the non-array value `"x"`,
`updateQuestions` and `setQuestions` disagree — `updateQuestions`
returns code 0 and writes a file, while `setQuestions` returns code 400
and writes nothing. -/
theorem updateQuestions_differs_counterexample :
    Survey.updateQuestions (some (.str "x")) "s" "u" "t" [] ≠
      Survey.setQuestions (some (.str "x")) "s" "u" "t" []
    ∧ (Survey.updateQuestions (some (.str "x")) "s" "u" "t" []).1.code = 0
    ∧ (Survey.updateQuestions (some (.str "x")) "s" "u" "t" []).2 ≠ []
    ∧ Survey.setQuestions (some (.str "x")) "s" "u" "t" [] =
        (⟨400, "参数错误", "请提供正确的问题列表"⟩, []) := by
  refine ⟨?_, rfl, ?_, rfl⟩
  · intro h
    simp [Survey.updateQuestions, Survey.setQuestions, Store.saveQuestions,
      jsTruthy, jsIsArray, Json.truthy, assocSetJ, Prod.ext_iff] at h
  · intro h
    simp [Survey.updateQuestions, Store.saveQuestions, assocSetJ] at h

/-- Claim C1 as amended: for every array `questions` value,
`updateQuestions` returns the same envelope and has the same file-write
effect as `setQuestions`; but `updateQuestions` performs no validation,
so for an absent or non-array value it still overwrites the question
file and returns code 0, where `setQuestions` returns code 400 without
writing. -/
theorem updateQuestions_amended (q : Option Json)
    (surveyName uid time : String) (fs : Fs) :
    (jsIsArray q = true →
      Survey.updateQuestions q surveyName uid time fs =
        Survey.setQuestions q surveyName uid time fs)
    ∧ (jsIsArray q = false →
      Survey.updateQuestions q surveyName uid time fs =
        (⟨0, "设置成功", "问题列表已更新！"⟩,
          assocSetJ fs (surveyName ++ "_question.json") (questionFileJson uid time q))
      ∧ Survey.setQuestions q surveyName uid time fs =
          (⟨400, "参数错误", "请提供正确的问题列表"⟩, fs)) := by
  constructor
  · intro h
    have ht : jsTruthy q = true := by
      match q, h with
      | some (.arr xs), _ => rfl
    simp [Survey.updateQuestions, Survey.setQuestions, h, ht, Store.saveQuestions]
  · intro h
    exact ⟨rfl, by simp [Survey.setQuestions, h]⟩

/-- Witness for the amended C1 at a concrete array input. -/
theorem updateQuestions_amended_witness :
    Survey.updateQuestions (some (.arr [])) "s" "u" "t" [] =
      Survey.setQuestions (some (.arr [])) "s" "u" "t" [] :=
  (updateQuestions_amended (some (.arr [])) "s" "u" "t" []).1 rfl

/-- Claim C7: `getRole` on the empty userId returns code 400; on a
non-empty userId with no assigned role it returns code 0 with the empty
string (never 404); and after `setRole` with non-empty arguments,
`getRole` returns code 0 with that role (last write wins). -/
theorem getRole_semantics (userId role : String) (m : RoleMap) :
    Authorization.getRole "" m = ⟨400, "缺少参数", "请提供正确的用户id"⟩
    ∧ (userId ≠ "" → m.lookup userId = none →
        Authorization.getRole userId m = ⟨0, "查询成功", ""⟩)
    ∧ (userId ≠ "" → role ≠ "" →
        Authorization.getRole userId (Authorization.setRole userId role m).2 =
          ⟨0, "查询成功", role⟩) := by
  refine ⟨by simp [Authorization.getRole], ?_, ?_⟩
  · intro h hl
    simp [Authorization.getRole, h, hl]
  · intro hu hr
    simp [Authorization.setRole, hu, hr, Authorization.getRole,
      lookup_assocSetS_self]

/-- Witness for C7: the set-then-get round trip at `("u1", "admin")`. -/
theorem getRole_semantics_witness :
    Authorization.getRole "u1" (Authorization.setRole "u1" "admin" []).2 =
      ⟨0, "查询成功", "admin"⟩ :=
  (getRole_semantics "u1" "admin" []).2.2 (by decide) (by decide)

/-- Claim C10: the submission endpoint tests raw JavaScript truthiness,
so a payload with age 0, or with an empty-string name, gender or survey
result, is rejected with code 400 and the store is left unchanged. -/
theorem submit_falsy_rejected (name gender surveyResult : Option String)
    (age : Option Int) (freshId : String) (now : Int)
    (store : List SurveyData) :
    postSurvey name (some 0) gender surveyResult freshId now store =
      (⟨400, "缺少参数", none⟩, store)
    ∧ postSurvey (some "") age gender surveyResult freshId now store =
      (⟨400, "缺少参数", none⟩, store)
    ∧ postSurvey name age (some "") surveyResult freshId now store =
      (⟨400, "缺少参数", none⟩, store)
    ∧ postSurvey name age gender (some "") freshId now store =
      (⟨400, "缺少参数", none⟩, store) := by
  refine ⟨?_, ?_, ?_, ?_⟩ <;> simp [postSurvey, strTruthy, numTruthy]

/-- Counterexample to claim C3: the payload (name "bob", age 0, gender
"m", surveyResult "ok") is complete — every field present and non-null —
yet the endpoint returns code 400 with null data and persists nothing,
where the claim demands code 0 and one appended record. -/
theorem submit_complete_age_zero_counterexample :
    postSurvey (some "bob") (some 0) (some "m") (some "ok") "id1" 5 [] =
      (⟨400, "缺少参数", none⟩, []) := rfl

/-- Claim C3 as amended: a submission in which any of the four fields is
falsy — absent, null, an empty string, or an age of 0 — yields code 400
with null data and persists nothing; a truthy payload (all four present,
strings non-empty, age non-zero) appends exactly one new record with the
freshly generated id, returns code 0 with that record, and a subsequent
`list()` includes it. -/
theorem submit_validation_amended
    (name gender surveyResult : Option String) (age : Option Int)
    (freshId : String) (now : Int) (store : List SurveyData) :
    ((strTruthy name = false ∨ numTruthy age = false ∨
      strTruthy gender = false ∨ strTruthy surveyResult = false) →
      postSurvey name age gender surveyResult freshId now store =
        (⟨400, "缺少参数", none⟩, store))
    ∧ (∀ (n : String) (a : Int) (g s : String),
        name = some n → age = some a → gender = some g →
        surveyResult = some s → n ≠ "" → a ≠ 0 → g ≠ "" → s ≠ "" →
        (∀ r ∈ store, r.id ≠ freshId) →
        postSurvey name age gender surveyResult freshId now store =
          (⟨0, "提交成功", some (⟨freshId, n, a, g, s, now⟩ : SurveyData)⟩,
            store ++ [⟨freshId, n, a, g, s, now⟩])
        ∧ (store ++ ([⟨freshId, n, a, g, s, now⟩] : List SurveyData)).filter
            (fun r => r.id == freshId) = [⟨freshId, n, a, g, s, now⟩]
        ∧ (⟨freshId, n, a, g, s, now⟩ : SurveyData) ∈
            (Survey.list (store ++ [⟨freshId, n, a, g, s, now⟩])).data) := by
  constructor
  · intro h
    rcases h with h | h | h | h <;> simp [postSurvey, h]
  · intro n a g s hn ha hg hs hn0 ha0 hg0 hs0 hfresh
    subst hn; subst ha; subst hg; subst hs
    refine ⟨?_, ?_, ?_⟩
    · simp [postSurvey, strTruthy, numTruthy, hn0, ha0, hg0, hs0, Survey.save]
    · rw [List.filter_append]
      have h1 : store.filter (fun r => r.id == freshId) = [] := by
        rw [List.filter_eq_nil_iff]
        intro r hr
        simpa using hfresh r hr
      simp [h1]
    · simp [Survey.list]

/-- Witness for the amended C3: a truthy submission into the empty
store. -/
theorem submit_validation_amended_witness :
    postSurvey (some "bob") (some 20) (some "m") (some "ok") "id1" 5 [] =
      (⟨0, "提交成功", some ⟨"id1", "bob", 20, "m", "ok", 5⟩⟩,
        [⟨"id1", "bob", 20, "m", "ok", 5⟩]) :=
  ((submit_validation_amended (some "bob") (some "m") (some "ok")
      (some 20) "id1" 5 []).2 "bob" 20 "m" "ok" rfl rfl rfl rfl (by decide)
      (by decide) (by decide) (by decide) (by simp)).1

/-- Claim C5: `list()` returns code 0 with the responses sorted
descending by `createdAt`: the output is a permutation of the store,
pairwise descending; a record with strictly larger `createdAt` appears
before one with smaller; and any pair already in descending (or equal)
order in the store keeps its relative order (stability). -/
theorem list_ordering (store : List SurveyData) :
    (Survey.list store).code = 0
    ∧ ((Survey.list store).data).Pairwise
        (fun a b => b.createdAt ≤ a.createdAt)
    ∧ ((Survey.list store).data).Perm store
    ∧ (∀ a b, a ∈ store → b ∈ store → a.createdAt < b.createdAt →
        List.Sublist [b, a] (Survey.list store).data)
    ∧ (∀ a b, List.Sublist [a, b] store → b.createdAt ≤ a.createdAt →
        List.Sublist [a, b] (Survey.list store).data) := by
  have htrans : ∀ (a b c : SurveyData),
      decide (b.createdAt ≤ a.createdAt) = true →
      decide (c.createdAt ≤ b.createdAt) = true →
      decide (c.createdAt ≤ a.createdAt) = true := by
    intro a b c h1 h2
    simp only [decide_eq_true_eq] at *
    omega
  have htotal : ∀ (a b : SurveyData),
      (decide (b.createdAt ≤ a.createdAt) ||
        decide (a.createdAt ≤ b.createdAt)) = true := by
    intro a b
    simp only [Bool.or_eq_true, decide_eq_true_eq]
    omega
  have hdata : (Survey.list store).data =
      store.mergeSort (fun a b => decide (b.createdAt ≤ a.createdAt)) := rfl
  have hpair : ((Survey.list store).data).Pairwise
      (fun a b => b.createdAt ≤ a.createdAt) := by
    rw [hdata]
    exact (List.sorted_mergeSort htrans htotal store).imp
      (by intro a b h; simpa using h)
  refine ⟨rfl, hpair, ?_, ?_, ?_⟩
  · rw [hdata]; exact List.mergeSort_perm store _
  · intro a b ha hb hlt
    apply pair_sublist_of_pairwise hpair
    · rw [hdata]; exact List.mem_mergeSort.mpr ha
    · rw [hdata]; exact List.mem_mergeSort.mpr hb
    · intro he
      rw [he] at hlt
      omega
    · show ¬ b.createdAt ≤ a.createdAt
      omega
  · intro a b hsub hle
    rw [hdata]
    exact List.pair_sublist_mergeSort htrans htotal (by simpa using hle) hsub

/-- Witness for C5: the later record of two comes first. -/
theorem list_ordering_witness :
    List.Sublist [⟨"b", "", 0, "", "", 2⟩, ⟨"a", "", 0, "", "", 1⟩]
      (Survey.list [⟨"a", "", 0, "", "", 1⟩, ⟨"b", "", 0, "", "", 2⟩]).data :=
  (list_ordering [⟨"a", "", 0, "", "", 1⟩, ⟨"b", "", 0, "", "", 2⟩]).2.2.2.1
    ⟨"a", "", 0, "", "", 1⟩ ⟨"b", "", 0, "", "", 2⟩ (by decide) (by decide)
    (by decide)

/-- Claim C6: `findById` returns code 404 with null data when no stored
record has the id, and code 0 with exactly the first matching record of
a linear scan in storage order when one does. -/
theorem findById_semantics (id : String) (store : List SurveyData) :
    ((∀ r ∈ store, r.id ≠ id) →
      Survey.findById id store = ⟨404, "数据不存在", none⟩)
    ∧ ((∃ r ∈ store, r.id = id) →
      ∃ r0 l1 l2, Survey.findById id store = ⟨0, "查询成功", some r0⟩
        ∧ r0.id = id ∧ store = l1 ++ r0 :: l2 ∧ ∀ x ∈ l1, x.id ≠ id) := by
  constructor
  · intro h
    have hf : store.find? (fun item => item.id == id) = none := by
      rw [List.find?_eq_none]
      intro x hx
      simpa using h x hx
    simp [Survey.findById, hf]
  · intro h
    have hs : (store.find? (fun item => item.id == id)).isSome := by
      rw [List.find?_isSome]
      obtain ⟨r, hr, hid⟩ := h
      exact ⟨r, hr, by simpa using hid⟩
    obtain ⟨r0, hr0⟩ := Option.isSome_iff_exists.mp hs
    obtain ⟨hpr, l1, l2, hsplit, hprev⟩ := List.find?_eq_some.mp hr0
    refine ⟨r0, l1, l2, ?_, ?_, hsplit, ?_⟩
    · simp [Survey.findById, hr0]
    · simpa using hpr
    · intro x hx
      simpa using hprev x hx

/-- Witness for C6: an unknown id on a one-record store. -/
theorem findById_semantics_witness :
    Survey.findById "z" [⟨"a", "n", 1, "g", "r", 0⟩] =
      ⟨404, "数据不存在", none⟩ :=
  (findById_semantics "z" [⟨"a", "n", 1, "g", "r", 0⟩]).1 (by decide)

/-- Counterexample to claim C2: writing the questions `["q1"]` for
survey "fruit" (for any user — `saveQuestions` takes no user name) goes
to the top-level file `fruit_question.json`, and querying that survey
right after the write returns code 404, not the written questions. -/
theorem questions_roundtrip_counterexample :
    (Survey.querySurveyData "fruit"
        (Store.saveQuestions (some (.arr [.str "q1"])) "fruit" "u1" "t1" []).2).code
      = 404
    ∧ (Store.saveQuestions (some (.arr [.str "q1"])) "fruit" "u1" "t1" []).2 =
        [("fruit_question.json",
          Json.obj [("id", Json.str "u1"), ("createTime", Json.str "t1"),
            ("questions", Json.arr [Json.str "q1"])])] :=
  ⟨rfl, rfl⟩

/-- Claim C2 as amended: `saveQuestions` ignores any user name and
writes `{id, createTime, questions}` (no `surveyName` field) to the
top-level file `<surveyName>_question.json`, overwriting prior content;
since `querySurveyData` only matches files named `<surveyName>_data_*`,
querying the survey after the write — like querying a never-written
survey — returns code 404 (stated for stores holding no `_data_`
files, which this code never creates). -/
theorem questions_storage_amended (q : Json) (surveyName uid time : String)
    (fs : Fs)
    (hfs : ∀ p ∈ fs,
      ((surveyName ++ "_data_").data.isPrefixOf p.1.data) = false) :
    Store.saveQuestions (some q) surveyName uid time fs =
      ((⟨0, "设置成功", "问题列表已更新！"⟩ : Response String),
        assocSetJ fs (surveyName ++ "_question.json")
          (Json.obj [("id", Json.str uid), ("createTime", Json.str time),
            ("questions", q)]))
    ∧ (Survey.querySurveyData surveyName
        (Store.saveQuestions (some q) surveyName uid time fs).2).code = 404 := by
  constructor
  · rfl
  · have hempty : Store.querySurveyData surveyName
        (Store.saveQuestions (some q) surveyName uid time fs).2 = [] := by
      unfold Store.querySurveyData
      rw [List.map_eq_nil_iff, List.filter_eq_nil_iff]
      intro f hf
      obtain ⟨p, hp, hpf⟩ := List.mem_map.mp hf
      subst hpf
      rcases fst_mem_assocSetJ p hp with h1 | h2
      · rw [h1]
        simp [question_file_no_data_match]
      · have h3 := hfs p h2
        rw [Bool.eq_false_iff, ne_eq, List.isPrefixOf_iff_prefix] at h3
        simpa using h3
    simp [Survey.querySurveyData, hempty]

/-- Witness for the amended C2 on a store holding only `survey.json`. -/
theorem questions_storage_amended_witness :
    (Survey.querySurveyData "fruit"
        (Store.saveQuestions (some (.arr [])) "fruit" "u" "t"
          [("survey.json", Json.arr [])]).2).code = 404 :=
  (questions_storage_amended (.arr []) "fruit" "u" "t"
      [("survey.json", Json.arr [])] (by decide)).2

/-- Claim C9: because `findByFileName` appends `.json` to a file name
that already carries its extension, the per-file read of
`querySurveyData` always misses (whenever no file name equals another
plus `.json`, true of every file this system writes), so each returned
record is exactly `{ id: <matched file name> }` with no data fields. -/
theorem querySurveyData_only_id (surveyName : String) (fs : Fs)
    (h : ∀ p ∈ fs, (p.1 ++ ".json") ∉ fs.map Prod.fst) :
    Store.querySurveyData surveyName fs =
      ((fs.map Prod.fst).filter
          (fun f => (surveyName ++ "_data_").data.isPrefixOf f.data)).map
        (fun f => Json.obj [("id", Json.str f)]) := by
  unfold Store.querySurveyData
  apply List.map_congr_left
  intro f hf
  have hfmem : f ∈ fs.map Prod.fst := (List.mem_filter.mp hf).1
  obtain ⟨p, hp, hpf⟩ := List.mem_map.mp hfmem
  have hnone : Store.findByFileName f fs = none := by
    unfold Store.findByFileName
    rw [List.lookup_eq_none_iff]
    intro q hq
    have habs : (f ++ ".json") ∉ fs.map Prod.fst := by
      subst hpf; exact h p hp
    simp only [bne_iff_ne, ne_eq]
    intro heq
    apply habs
    rw [heq]
    exact List.mem_map_of_mem Prod.fst hq
  rw [hnone]
  rfl

/-- Witness for C9: one matching data file whose stored fields all
vanish from the query result. -/
theorem querySurveyData_only_id_witness :
    Store.querySurveyData "fruit"
        [("fruit_data_1.json", Json.obj [("name", Json.str "bob")])] =
      [Json.obj [("id", Json.str "fruit_data_1.json")]] := by
  rw [querySurveyData_only_id "fruit" _ (by decide)]
  rfl

end CollectX
